import Mathlib

/-!
Verification of the incremental movie scraper in `src/api/scrape.js`.

The file shallowly embeds the scraper's pure logic:

* the taxonomy-normalizing writer `insertNewMovies` (per-record try/catch,
  genre/tag get-or-create, download-link rows);
* the boundary scan inside `scrapeMoviesIncrementally` that collects new
  records until one matches the destination watermark;
* the `scraper_state` progress table (`getScraperState`,
  `updateScraperState`, `dropScraperStateTable`);
* the resumption engine `scrapeMoviesIncrementally` itself, driven by an
  abstract upstream `Nat → FetchResult` standing for the paginated HTTP
  source.

Database effects are modelled as explicit state on a `DB` record; MySQL
errors on the movies-row insert are injected through a `failNames`
parameter (a thrown error on any statement of the per-movie body is caught
by the per-movie `catch`, which is what the injection exercises).  The
fire-and-forget `triggerRevalidate` HTTP call and all logging have no
observable effect on the stores modelled here and are omitted.
-/

namespace Scrape

/-- One download variant of a movie, as consumed by the
`INSERT INTO download_links (movie_id, label, url)` statement. -/
structure DLink where
  label : String
  url : String
deriving DecidableEq

/-- An upstream record as delivered by the scraper API.  Fields mirror the
columns bound in the `INSERT INTO movies` statement; `downloadLinks`,
`genre` and `tags` may be null/absent in the JSON (`none`).  In JS a null
`movie.genre` / `movie.tags` is defaulted by `|| []`, while
`movie.download_links` has no such default — iterating it when null throws. -/
structure Movie where
  name : String
  description : Option String := none
  duration : Option String := none
  quality : Option String := none
  rating : Option String := none
  releaseDate : Option String := none
  language : Option String := none
  iframeSrc : Option String := none
  poster : Option String := none
  posterAlt : Option String := none
  url : Option String := none
  year : Option String := none
  backdropPath : Option String := none
  downloadLinks : Option (List DLink) := none
  genre : Option (List String) := none
  tags : Option (List String) := none
deriving DecidableEq

/-- A row of the `movies` table.  `id` is the AUTO_INCREMENT key.
`releaseDate` is stored as the value passed to `new Date(...)`; the date
parsing itself is value-preserving for the purposes of the claims. -/
structure MovieRow where
  id : Nat
  name : String
  description : Option String
  duration : Option String
  quality : Option String
  rating : Option String
  releaseDate : Option String
  language : Option String
  iframeSrc : Option String
  poster : Option String
  posterAlt : Option String
  url : Option String
  year : Option String
  backdropPath : Option String
deriving DecidableEq

/-- A row of `download_links`. -/
structure DLRow where
  movieId : Nat
  label : String
  url : String
deriving DecidableEq

/-- A row of the name-keyed `genres` / `tags` tables. -/
structure EntityRow where
  id : Nat
  name : String
deriving DecidableEq

/-- A row of the `movie_genres` / `movie_tags` link tables. -/
structure LinkRow where
  movieId : Nat
  entityId : Nat
deriving DecidableEq

/-- The destination relational store.  Lists are kept in insertion order,
so the row with the largest AUTO_INCREMENT id is the last element. -/
structure DB where
  movies : List MovieRow
  downloadLinks : List DLRow
  genres : List EntityRow
  tags : List EntityRow
  movieGenres : List LinkRow
  movieTags : List LinkRow
deriving DecidableEq

def DB.empty : DB := ⟨[], [], [], [], [], []⟩

/-- `getLastMovieName`: `SELECT name FROM movies ORDER BY id DESC LIMIT 1`;
rows are held in id order, so this is the name of the last row, or `null`
when the table is empty. -/
def getLastMovieName (db : DB) : Option String :=
  db.movies.getLast?.map MovieRow.name

/-- The character class `\s` of the JavaScript regex engine (whitespace,
line terminators, and Unicode space separators). -/
def isJsSpace (c : Char) : Bool :=
  let n := c.toNat
  n == 32 || n == 9 || n == 10 || n == 11 || n == 12 || n == 13 ||
  n == 0xa0 || n == 0x1680 ||
  (decide (0x2000 ≤ n) && decide (n ≤ 0x200a)) ||
  n == 0x2028 || n == 0x2029 || n == 0x202f || n == 0x205f ||
  n == 0x3000 || n == 0xfeff

/-- The duration value bound into the `movies` insert:
`movie.duration?.startsWith('Duration:') ? movie.duration.replace(/^Duration:\s*/, '') : movie.duration`.
When the guard holds, the anchored regex match is the 9-character literal
`Duration:` followed by the maximal run of `\s` characters, replaced by the
empty string; otherwise (including a null duration) the value is passed
through unchanged.  Strings are handled through their character lists:
`startsWith` is prefix testing and the replacement drops the 9 matched
characters and then the whitespace run. -/
def storedDuration : Option String → Option String
  | none => none
  | some d =>
    if "Duration:".data.isPrefixOf d.data then
      some (String.mk ((d.data.drop 9).dropWhile isJsSpace))
    else some d

/-- The `movies` row built for one upstream record. -/
def movieRowOf (mid : Nat) (m : Movie) : MovieRow :=
  ⟨mid, m.name, m.description, storedDuration m.duration, m.quality, m.rating,
   m.releaseDate, m.language, m.iframeSrc, m.poster, m.posterAlt, m.url,
   m.year, m.backdropPath⟩

/-- Get-or-create of a name-keyed entity (`genres` / `tags`):
`SELECT id ... WHERE name = ?`, and if absent `INSERT` returning the fresh
AUTO_INCREMENT id (modelled as row count + 1). -/
def getOrCreate (rows : List EntityRow) (nm : String) : Nat × List EntityRow :=
  match rows.find? (fun r => r.name == nm) with
  | some r => (r.id, rows)
  | none => (rows.length + 1, rows ++ [⟨rows.length + 1, nm⟩])

/-- The genre loop of `insertNewMovies`: get-or-create each genre and add a
`movie_genres` link row. -/
def insertGenreLinks (mid : Nat) : DB → List String → DB
  | db, [] => db
  | db, g :: gs =>
    let p := getOrCreate db.genres g
    insertGenreLinks mid
      { db with genres := p.2, movieGenres := db.movieGenres ++ [⟨mid, p.1⟩] } gs

/-- The tag loop of `insertNewMovies`: get-or-create each tag and add a
`movie_tags` link row. -/
def insertTagLinks (mid : Nat) : DB → List String → DB
  | db, [] => db
  | db, t :: ts =>
    let p := getOrCreate db.tags t
    insertTagLinks mid
      { db with tags := p.2, movieTags := db.movieTags ++ [⟨mid, p.1⟩] } ts

/-- The body of the per-movie `try` block of `insertNewMovies`.
`failNames` injects a thrown MySQL error (constraint violation, malformed
field, ...) on the `INSERT INTO movies` statement itself: nothing is written
then.  A movie whose `download_links` is null throws a TypeError when
`for...of` iterates it; the movies row written just before stays (there is
no transaction), but the record does not complete and its name is not
pushed.  Returns whether the whole body ran without throwing, together with
the updated database. -/
def insertOneMovie (failNames : List String) (db : DB) (m : Movie) : Bool × DB :=
  if failNames.contains m.name then (false, db)
  else
    let mid := db.movies.length + 1
    let db1 : DB := { db with movies := db.movies ++ [movieRowOf mid m] }
    match m.downloadLinks with
    | none => (false, db1)
    | some links =>
      let db2 : DB :=
        { db1 with downloadLinks :=
            db1.downloadLinks ++ links.map (fun l => ⟨mid, l.label, l.url⟩) }
      let db3 := insertGenreLinks mid db2 (m.genre.getD [])
      let db4 := insertTagLinks mid db3 (m.tags.getD [])
      (true, db4)

/-- `insertNewMovies`: process the batch in order with a per-record
try/catch — a failed record is logged and skipped, later records are still
processed — and return the names actually inserted, in processing order. -/
def insertNewMovies (failNames : List String) : DB → List Movie → List String × DB
  | db, [] => ([], db)
  | db, m :: ms =>
    let r1 := insertOneMovie failNames db m
    let r2 := insertNewMovies failNames r1.2 ms
    (if r1.1 then m.name :: r2.1 else r2.1, r2.2)

/-- A record completes insertion iff its movies-row insert does not throw
and its `download_links` is not null. -/
def recordOk (failNames : List String) (m : Movie) : Bool :=
  !(failNames.contains m.name) && m.downloadLinks.isSome

/-- The boundary scan of `scrapeMoviesIncrementally`: collect movies of the
page in order until one whose `name === dbLastMovieName`; the boolean is the
`foundLastMovie` flag set when the loop broke on a match. -/
def splitAtWatermark (wm : Option String) : List Movie → List Movie × Bool
  | [] => ([], false)
  | m :: ms =>
    if some m.name = wm then ([], true)
    else
      let p := splitAtWatermark wm ms
      (m :: p.1, p.2)

/-- A row of the `scraper_state` table. -/
structure PState where
  lastPage : Nat
  lastMovieName : Option String
  completed : Bool
deriving DecidableEq

/-- The `scraper_state` table: `none` means the table does not exist (it
was dropped); rows are appended with AUTO_INCREMENT ids, so the current
state (`ORDER BY id DESC LIMIT 1`) is the last element. -/
abbrev Store := Option (List PState)

/-- The state row created on first use: `(last_page 1, null, FALSE)`. -/
def initialPState : PState := ⟨1, none, false⟩

/-- `getScraperState`: `CREATE TABLE IF NOT EXISTS`, read the newest row,
and when no row exists insert and return the initial state. -/
def getScraperState : Store → PState × Store
  | none => (initialPState, some [initialPState])
  | some l =>
    match l.getLast? with
    | none => (initialPState, some [initialPState])
    | some r => (r, some l)

/-- `updateScraperState`: append a new state row (the engine only calls it
after `getScraperState` has ensured the table exists). -/
def updateScraperState (s : Store) (r : PState) : Store :=
  some (s.getD [] ++ [r])

/-- The current progress row, if the table exists and is non-empty. -/
def latestState (s : Store) : Option PState :=
  s.bind List.getLast?

/-- Outcome of one `fetch` of the upstream movies endpoint.
`ok ms` is a 2xx response whose body held `movies` (an absent, non-array or
empty `movies` field is `ok []`, the branch the code treats as exhaustion);
`httpError` is `!response.ok`; `exn` means `fetch`/`response.json()` threw
(network failure and the like), propagating into the engine's `catch`. -/
inductive FetchResult where
  | ok (movies : List Movie)
  | httpError
  | exn
deriving DecidableEq

/-- The upstream source: what fetching each page number returns.  One run
never observes a page twice, so a function models the unchanged-upstream
scenarios of the spec. -/
abbrev Upstream := Nat → FetchResult

/-- The `stats` object of the run summary. -/
structure Stats where
  processedPages : Nat
  moviesFound : Nat
  moviesInserted : Nat
deriving DecidableEq

/-- The run summary returned on normal completion (the `message` string is
derived from these fields and not modelled separately). -/
structure RunSummary where
  success : Bool
  stats : Stats
  completed : Bool
  nextPage : Nat
deriving DecidableEq

/-- `moviesForThisPage[0]?.name || state.lastMovieName`: JS `||` falls back
both when the page kept no movie (`undefined`) and when the first kept
name is the falsy empty string. -/
def wmOfKeep (keep : List Movie) (stateWm : Option String) : Option String :=
  match keep.head? with
  | none => stateWm
  | some m => if m.name = "" then stateWm else some m.name

/-- Result of the paging `for` loop: either it ran to a `break` / loop end
(`done`, carrying the `page` variable, the `foundLastMovie` flag, the
accumulated `newMovies`, the stats, the store, and how many fetches were
issued), or an exception escaped it (`thrown`). -/
inductive LoopOut where
  | done (page : Nat) (found : Bool) (acc : List Movie) (stats : Stats)
      (store : Store) (fetches : Nat)
  | thrown (page : Nat) (store : Store) (fetches : Nat)
deriving DecidableEq

/-- The number of upstream fetches an outcome records. -/
def LoopOut.fetchCount : LoopOut → Nat
  | .done _ _ _ _ _ f => f
  | .thrown _ _ f => f

/-- The paging loop `for (let i = 0; i < maxPagesToProcess; i++)` of
`scrapeMoviesIncrementally` with `maxPagesToProcess = 4`.  `dbWm` is
`dbLastMovieName` (fetched once before the loop) and `stateWm` is
`state.lastMovieName`, never reassigned inside the loop.  Each iteration
fetches `page`; on `!response.ok` it breaks; on an empty/absent `movies`
array it persists `(page, stateWm, completed=true)` and breaks; otherwise
it counts the page, runs the boundary scan, and either breaks with
`foundLastMovie` persisting `(page, keep[0]?.name || stateWm, true)`, or
advances to `page+1` persisting `(page+1, keep[0]?.name || stateWm, false)`. -/
def pagingLoop (up : Upstream) (dbWm stateWm : Option String) :
    Nat → Nat → List Movie → Stats → Store → Nat → LoopOut
  | 0, page, acc, stats, store, fetches => .done page false acc stats store fetches
  | b + 1, page, acc, stats, store, fetches =>
    match up page with
    | .exn => .thrown page store (fetches + 1)
    | .httpError => .done page false acc stats store (fetches + 1)
    | .ok movies =>
      if movies.isEmpty then
        .done page false acc stats
          (updateScraperState store ⟨page, stateWm, true⟩) (fetches + 1)
      else
        let stats' : Stats :=
          { stats with processedPages := stats.processedPages + 1,
                       moviesFound := stats.moviesFound + movies.length }
        let p := splitAtWatermark dbWm movies
        if p.2 then
          .done page true (acc ++ p.1) stats'
            (updateScraperState store ⟨page, wmOfKeep p.1 stateWm, true⟩) (fetches + 1)
        else
          pagingLoop up dbWm stateWm b (page + 1) (acc ++ p.1) stats'
            (updateScraperState store ⟨page + 1, wmOfKeep p.1 stateWm, false⟩) (fetches + 1)

/-- The Idle phase of the engine: read the scraper state, and if the
previous run had `completed = true`, persist a fresh `(1, null, false)` row
and start a new cycle from it. -/
def idlePhase (store : Store) : PState × Store :=
  let p := getScraperState store
  if p.1.completed then (initialPState, updateScraperState p.2 initialPState)
  else p

/-- Everything one invocation of `scrapeMoviesIncrementally` leaves behind:
`result` is the returned run summary, or `none` when an exception
propagated to the caller; `db` and `store` are the destination store and
the `scraper_state` table afterwards; `fetches` counts upstream fetch
calls; `startPage` is the page the paging loop started from; `flushed` is
the batch handed to `insertNewMovies` (`[]` when the insert was skipped). -/
structure EngineOut where
  result : Option RunSummary
  db : DB
  store : Store
  fetches : Nat
  startPage : Nat
  flushed : List Movie
deriving DecidableEq

/-- `scrapeMoviesIncrementally`: read the destination watermark and the
progress state (resetting it when the previous run completed), run the
paging loop, insert the accumulated movies reversed (oldest first) when
there are any, drop the `scraper_state` table when `foundLastMovie`, and
report the summary.  If the loop threw, the `catch` block persists
`(page, state.lastMovieName, false)` and rethrows. -/
def scrapeMoviesIncrementally (up : Upstream) (failNames : List String)
    (db : DB) (store : Store) : EngineOut :=
  let dbWm := getLastMovieName db
  let st2 := idlePhase store
  match pagingLoop up dbWm st2.1.lastMovieName 4 st2.1.lastPage [] ⟨0, 0, 0⟩ st2.2 0 with
  | .thrown page st f =>
    { result := none, db := db,
      store := updateScraperState st ⟨page, st2.1.lastMovieName, false⟩,
      fetches := f, startPage := st2.1.lastPage, flushed := [] }
  | .done page found acc stats st f =>
    let ins := if acc.isEmpty then ([], db) else insertNewMovies failNames db acc.reverse
    { result := some
        { success := true,
          stats := { stats with moviesInserted := ins.1.length },
          completed := found,
          nextPage := page },
      db := ins.2,
      store := if found then none else st,
      fetches := f, startPage := st2.1.lastPage,
      flushed := if acc.isEmpty then [] else acc.reverse }

/-- A minimal well-formed record: a name and an empty variants list, all
other fields absent. -/
def sampleMovie (nm : String) : Movie :=
  { name := nm, downloadLinks := some [] }

/-- A record whose `download_links` field is null/absent. -/
def mNoLinks : Movie := { name := "B" }

def m4 := sampleMovie "M4"
def m5 := sampleMovie "M5"
def m6 := sampleMovie "M6"
def m7 := sampleMovie "M7"
def m8 := sampleMovie "M8"
def m9 := sampleMovie "M9"

/-- Upstream for the truncation scenario: pages 1 and 2 succeed (newest
first across pages), page 3 answers with a non-success HTTP status. -/
def upC3 : Upstream := fun p =>
  match p with
  | 1 => .ok [m9, m8, m7]
  | 2 => .ok [m6, m5, m4]
  | _ => .httpError

/-- A destination store already holding `M6`. -/
def dbC4 : DB := ⟨[movieRowOf 1 m6], [], [], [], [], []⟩

/-- Upstream for the boundary scenario: page 1 is all new, page 2 starts
with the already-known `M6`. -/
def upC4 : Upstream := fun p =>
  match p with
  | 1 => .ok [m9, m8, m7]
  | 2 => .ok [m6, m5]
  | _ => .ok []

/-- Upstream that is exhausted immediately: every page is empty. -/
def upExhausted : Upstream := fun _ => .ok []

/-- Upstream whose every fetch throws. -/
def upExn : Upstream := fun _ => .exn

/-- The already-known boundary record of the idempotent-re-run scenario. -/
def wMovie : Movie := sampleMovie "W"

/-- A destination store already holding only `wMovie`. -/
def dbOneW : DB := ⟨[movieRowOf 1 wMovie], [], [], [], [], []⟩

/-- Upstream with one new record ahead of the known `wMovie` on page 1. -/
def upOnePage : Upstream := fun p =>
  match p with
  | 1 => .ok ([sampleMovie "M1"] ++ wMovie :: [])
  | _ => .ok []

end Scrape

namespace Scrape

/-! ## Helper lemmas about the writer -/

/-- Whether the per-movie body completes depends only on the movie, not on
the database it is inserted into. -/
theorem insertOneMovie_fst (failNames : List String) (db : DB) (m : Movie) :
    (insertOneMovie failNames db m).1 = recordOk failNames m := by
  unfold insertOneMovie recordOk
  cases hc : failNames.contains m.name <;> cases hd : m.downloadLinks <;> simp [hc, hd]

/-- The genre loop never touches the `movies` table. -/
theorem insertGenreLinks_movies (mid : Nat) (gs : List String) :
    ∀ db : DB, (insertGenreLinks mid db gs).movies = db.movies := by
  induction gs with
  | nil => intro db; rfl
  | cons g gs ih => intro db; simp [insertGenreLinks, ih]

/-- The tag loop never touches the `movies` table. -/
theorem insertTagLinks_movies (mid : Nat) (ts : List String) :
    ∀ db : DB, (insertTagLinks mid db ts).movies = db.movies := by
  induction ts with
  | nil => intro db; rfl
  | cons t ts ih => intro db; simp [insertTagLinks, ih]

/-- The `movies` rows after one record: unchanged when the row insert
throws, otherwise exactly one appended row — even when a later statement of
the per-movie body throws. -/
theorem insertOneMovie_movies (failNames : List String) (db : DB) (m : Movie) :
    ((insertOneMovie failNames db m).2).movies =
      if failNames.contains m.name then db.movies
      else db.movies ++ [movieRowOf (db.movies.length + 1) m] := by
  unfold insertOneMovie
  cases hc : failNames.contains m.name
  · cases hd : m.downloadLinks <;>
      simp [hc, hd, insertGenreLinks_movies, insertTagLinks_movies]
  · simp [hc]

/-- The names returned by `insertNewMovies` are exactly the names of the
records whose whole per-movie body ran, in batch order. -/
theorem insertNewMovies_names (failNames : List String) (ms : List Movie) :
    ∀ db : DB,
      (insertNewMovies failNames db ms).1 = (ms.filter (recordOk failNames)).map Movie.name := by
  induction ms with
  | nil => intro db; rfl
  | cons m ms ih =>
    intro db
    simp only [insertNewMovies]
    rw [insertOneMovie_fst, ih]
    cases hr : recordOk failNames m <;> simp [hr, List.filter_cons]

/-- Name and duration of every `movies` row after a batch: the prior rows,
then one row per record whose row insert did not throw, carrying the
stripped duration. -/
theorem insertNewMovies_rows (failNames : List String) (ms : List Movie) :
    ∀ db : DB,
      ((insertNewMovies failNames db ms).2).movies.map (fun r => (r.name, r.duration)) =
        db.movies.map (fun r => (r.name, r.duration)) ++
          (ms.filter (fun m => !(failNames.contains m.name))).map
            (fun m => (m.name, storedDuration m.duration)) := by
  induction ms with
  | nil => intro db; simp [insertNewMovies]
  | cons m ms ih =>
    intro db
    simp only [insertNewMovies]
    rw [ih, insertOneMovie_movies]
    by_cases hc : m.name ∈ failNames <;> simp [hc, movieRowOf, List.filter_cons]

/-- Names of the `movies` rows after a batch. -/
theorem insertNewMovies_row_names (failNames : List String) (ms : List Movie) (db : DB) :
    ((insertNewMovies failNames db ms).2).movies.map MovieRow.name =
      db.movies.map MovieRow.name ++
        (ms.filter (fun m => !(failNames.contains m.name))).map Movie.name := by
  have h := congrArg (List.map Prod.fst) (insertNewMovies_rows failNames ms db)
  simpa [List.map_map, Function.comp] using h

/-! ## Helper lemmas about the boundary scan, the store and the loop -/

/-- Appending a state row makes it the current state. -/
theorem latestState_update (s : Store) (r : PState) :
    latestState (updateScraperState s r) = some r := by
  simp [latestState, updateScraperState, List.getLast?_concat]

/-- A null destination watermark never matches: the scan keeps the whole
page and does not set `foundLastMovie`. -/
theorem splitAtWatermark_none (ms : List Movie) :
    splitAtWatermark none ms = (ms, false) := by
  induction ms with
  | nil => rfl
  | cons m ms ih => simp [splitAtWatermark, ih]

/-- The boundary scan keeps exactly the longest prefix of records whose
names differ from the watermark, and reports a hit iff some record of the
page carries the watermark name. -/
theorem splitAtWatermark_takeWhile (wm : Option String) (ms : List Movie) :
    splitAtWatermark wm ms =
      (ms.takeWhile (fun m => decide (some m.name ≠ wm)),
       ms.any (fun m => decide (some m.name = wm))) := by
  induction ms with
  | nil => rfl
  | cons m ms ih =>
    by_cases h : some m.name = wm
    · simp [splitAtWatermark, List.takeWhile_cons, h]
    · simp [splitAtWatermark, List.takeWhile_cons, h, ih]

/-- Scanning `l1 ++ m0 :: l2` where no record of `l1` carries the watermark
name and `m0` does keeps exactly `l1` and hits the boundary. -/
theorem split_hits_after (wn : String) (l1 l2 : List Movie) (m0 : Movie)
    (hm : m0.name = wn) (h : ∀ m ∈ l1, m.name ≠ wn) :
    splitAtWatermark (some wn) (l1 ++ m0 :: l2) = (l1, true) := by
  induction l1 with
  | nil => simp [splitAtWatermark, hm]
  | cons a t ih =>
    have ha : a.name ≠ wn := h a (by simp)
    simp [splitAtWatermark, ha, ih (fun m hm2 => h m (by simp [hm2]))]

/-- Each loop iteration issues exactly one fetch, so the loop issues at
most as many fetches as its remaining budget. -/
theorem pagingLoop_fetchCount (up : Upstream) (dbWm stateWm : Option String) :
    ∀ (b page : Nat) (acc : List Movie) (stats : Stats) (store : Store) (f : Nat),
      (pagingLoop up dbWm stateWm b page acc stats store f).fetchCount ≤ f + b := by
  intro b
  induction b with
  | zero =>
    intro page acc stats store f
    simp [pagingLoop, LoopOut.fetchCount]
  | succ b ih =>
    intro page acc stats store f
    simp only [pagingLoop]
    cases h : up page with
    | exn => simp [LoopOut.fetchCount]
    | httpError => simp [LoopOut.fetchCount]
    | ok movies =>
      by_cases he : movies.isEmpty
      · simp [he, LoopOut.fetchCount]
      · simp only [he, Bool.false_eq_true, if_false]
        by_cases hs : (splitAtWatermark dbWm movies).2
        · simp [hs, LoopOut.fetchCount]
        · simp only [hs, Bool.false_eq_true, if_false]
          calc (pagingLoop up dbWm stateWm b (page + 1) _ _ _ (f + 1)).fetchCount
              ≤ (f + 1) + b := ih _ _ _ _ _
            _ ≤ f + (b + 1) := by omega

/-- One loop iteration on a non-empty page whose scan hits the boundary:
the loop breaks with `foundLastMovie`, appends the kept prefix, and
persists a `completed=true` state at the current page. -/
theorem pagingLoop_boundary (up : Upstream) (dbWm stateWm : Option String)
    (b page : Nat) (acc : List Movie) (stats : Stats) (store : Store) (f : Nat)
    (a : Movie) (l keep : List Movie)
    (h : up page = .ok (a :: l)) (hs : splitAtWatermark dbWm (a :: l) = (keep, true)) :
    pagingLoop up dbWm stateWm (b + 1) page acc stats store f =
      .done page true (acc ++ keep)
        { stats with processedPages := stats.processedPages + 1,
                     moviesFound := stats.moviesFound + (a :: l).length }
        (updateScraperState store ⟨page, wmOfKeep keep stateWm, true⟩) (f + 1) := by
  simp only [pagingLoop]
  rw [h]
  simp [hs]

/-- The page the paging loop starts from is the one the Idle phase read
(or reset). -/
theorem scrape_startPage (up : Upstream) (failNames : List String) (db : DB) (s : Store) :
    (scrapeMoviesIncrementally up failNames db s).startPage = (idlePhase s).1.lastPage := by
  simp only [scrapeMoviesIncrementally]
  cases hp : pagingLoop up (getLastMovieName db) (idlePhase s).1.lastMovieName 4
      (idlePhase s).1.lastPage [] ⟨0, 0, 0⟩ (idlePhase s).2 0 <;> simp

/-- If the store was dropped, or its current row says `completed=true`, the
Idle phase starts a fresh cycle at page 1. -/
theorem idle_lastPage_one (s : Store)
    (h : (latestState s).map PState.completed = some true ∨ s = none) :
    (idlePhase s).1.lastPage = 1 := by
  rcases h with h | rfl
  · cases s with
    | none => rfl
    | some l =>
      cases hl : l.getLast? with
      | none => simp [latestState, hl] at h
      | some r =>
        have hc : r.completed = true := by simpa [latestState, hl] using h
        simp [idlePhase, getScraperState, hl, hc, initialPState]
  · rfl

end Scrape

namespace Scrape

/-! ## Claim theorems -/

/-- Claim C2: for every fetched page and every destination watermark, the
boundary scan keeps exactly the prefix of records preceding the first
record whose name equals the watermark and sets `boundaryHit` iff such a
record exists; with a null watermark the entire page is kept and
`boundaryHit` is false. -/
theorem boundary_scan_strict_prefix_and_hit (wm : Option String) (ms : List Movie) :
    splitAtWatermark wm ms =
      (ms.takeWhile (fun m => decide (some m.name ≠ wm)),
       ms.any (fun m => decide (some m.name = wm)))
    ∧ splitAtWatermark none ms = (ms, false) :=
  ⟨splitAtWatermark_takeWhile wm ms, splitAtWatermark_none ms⟩

/-- Claim C5: a failure while persisting one record is caught and skipped
without aborting the rest of the batch — the returned list is exactly the
names of the records that inserted successfully, in order — and in the
concrete 3-record batch whose 2nd record fails, records 1 and 3 are
inserted and the reported count is 2. -/
theorem insertNewMovies_per_record_isolation (failNames : List String)
    (db : DB) (ms : List Movie) :
    (insertNewMovies failNames db ms).1 = (ms.filter (recordOk failNames)).map Movie.name
    ∧ ((insertNewMovies failNames db ms).2).movies.map MovieRow.name =
        db.movies.map MovieRow.name ++
          (ms.filter (fun m => !(failNames.contains m.name))).map Movie.name
    ∧ (insertNewMovies ["B"] DB.empty
        [sampleMovie "A", sampleMovie "B", sampleMovie "C"]).1 = ["A", "C"]
    ∧ ((insertNewMovies ["B"] DB.empty
        [sampleMovie "A", sampleMovie "B", sampleMovie "C"]).2).movies.map MovieRow.name
        = ["A", "C"] :=
  ⟨insertNewMovies_names failNames ms db, insertNewMovies_row_names failNames ms db,
   by decide, by decide⟩

/-- Claim C10: the duration written to every inserted `movies` row is the
input duration with a leading `Duration:` prefix and the whitespace after
it stripped, and a duration that does not start with `Duration:` (or is
null) is stored unchanged. -/
theorem movies_row_duration_is_stripped (failNames : List String) (db : DB) (ms : List Movie) :
    ((insertNewMovies failNames db ms).2).movies.map (fun r => (r.name, r.duration)) =
      db.movies.map (fun r => (r.name, r.duration)) ++
        (ms.filter (fun m => !(failNames.contains m.name))).map
          (fun m => (m.name, storedDuration m.duration))
    ∧ storedDuration (some "Duration: 2h 10m") = some "2h 10m"
    ∧ storedDuration (some "2h 10m") = some "2h 10m"
    ∧ storedDuration none = none :=
  ⟨insertNewMovies_rows failNames ms db, by decide, by decide, rfl⟩

/-- Claim C9: every invocation of `scrapeMoviesIncrementally` issues at
most 4 upstream page fetches before proceeding to flush, whatever the
upstream, the failure injection, the database and the progress store. -/
theorem scrape_fetches_at_most_four_pages (up : Upstream) (failNames : List String)
    (db : DB) (store : Store) :
    (scrapeMoviesIncrementally up failNames db store).fetches ≤ 4 := by
  simp only [scrapeMoviesIncrementally]
  have h := pagingLoop_fetchCount up (getLastMovieName db) (idlePhase store).1.lastMovieName
      4 (idlePhase store).1.lastPage [] ⟨0, 0, 0⟩ (idlePhase store).2 0
  cases hp : pagingLoop up (getLastMovieName db) (idlePhase store).1.lastMovieName 4
      (idlePhase store).1.lastPage [] ⟨0, 0, 0⟩ (idlePhase store).2 0 with
  | done page found acc stats st f => rw [hp] at h; simpa [LoopOut.fetchCount] using h
  | thrown page st f => rw [hp] at h; simpa [LoopOut.fetchCount] using h

/-- Claim C3: when page 3 answers a non-success HTTP status after pages 1
and 2 succeeded, the run stops paging, flushes the six accumulated records
(oldest first) with no boundary hit, reports `completed=false`, leaves the
progress store at cursor 3 with `completed=false`, and the next invocation
starts fetching at page 3, not page 1. -/
theorem transport_error_truncates_run_and_resumes_at_failed_page :
    latestState (scrapeMoviesIncrementally upC3 [] DB.empty none).store
        = some ⟨3, some "M6", false⟩
    ∧ (scrapeMoviesIncrementally upC3 [] DB.empty none).result.map RunSummary.completed
        = some false
    ∧ (scrapeMoviesIncrementally upC3 [] DB.empty none).flushed = [m4, m5, m6, m7, m8, m9]
    ∧ ((scrapeMoviesIncrementally upC3 [] DB.empty none).db.movies.map MovieRow.name)
        = ["M4", "M5", "M6", "M7", "M8", "M9"]
    ∧ (scrapeMoviesIncrementally upC3 []
        (scrapeMoviesIncrementally upC3 [] DB.empty none).db
        (scrapeMoviesIncrementally upC3 [] DB.empty none).store).startPage = 3 := by
  decide

/-- Claim C4: the new-record buffer collected newest-first across pages is
reversed to oldest-first before being handed to the writer: having
collected `[M9, M8, M7]`, `insertNewMovies` is invoked with
`[M7, M8, M9]`, and the rows land in the store in that order. -/
theorem writer_receives_reversed_buffer :
    (scrapeMoviesIncrementally upC4 [] dbC4 none).flushed = [m7, m8, m9]
    ∧ ((scrapeMoviesIncrementally upC4 [] dbC4 none).db.movies.map MovieRow.name)
        = ["M6", "M7", "M8", "M9"]
    ∧ (scrapeMoviesIncrementally upC4 [] dbC4 none).result.map RunSummary.completed
        = some true := by
  decide

/-- Claim C1 (counterexample): on upstream exhaustion (an empty first
page) the run summary reports `completed=false`, not `completed=true`, and
the progress store is not cleared — refuting the claim that both
terminating conditions clear the state and report `completed=true`. -/
theorem exhaustion_reports_incomplete_and_keeps_store :
    (scrapeMoviesIncrementally upExhausted [] DB.empty none).result.map RunSummary.completed
        = some false
    ∧ ¬ (scrapeMoviesIncrementally upExhausted [] DB.empty none).store = none := by
  decide

/-- Claim C1 (amended): a run whose summary reports `completed=true`
(boundary hit) has dropped the progress table; and after any run that
leaves the table dropped or its current row marked `completed=true` (the
exhaustion case — shown concretely in the third conjunct, where the summary
nevertheless reports `completed=false`), the next invocation begins a new
cycle at cursor 1. -/
theorem boundary_completion_clears_store_and_next_run_restarts (up : Upstream)
    (failNames : List String) (db : DB) (store : Store)
    (up2 : Upstream) (fail2 : List String) (db2 : DB) :
    ((scrapeMoviesIncrementally up failNames db store).result.map RunSummary.completed
        = some true →
      (scrapeMoviesIncrementally up failNames db store).store = none)
    ∧ ((latestState (scrapeMoviesIncrementally up failNames db store).store).map
          PState.completed = some true
        ∨ (scrapeMoviesIncrementally up failNames db store).store = none →
      (scrapeMoviesIncrementally up2 fail2 db2
          (scrapeMoviesIncrementally up failNames db store).store).startPage = 1)
    ∧ latestState (scrapeMoviesIncrementally upExhausted [] DB.empty none).store
        = some ⟨1, none, true⟩ := by
  refine ⟨?_, ?_, by decide⟩
  · simp only [scrapeMoviesIncrementally]
    cases hp : pagingLoop up (getLastMovieName db) (idlePhase store).1.lastMovieName 4
        (idlePhase store).1.lastPage [] ⟨0, 0, 0⟩ (idlePhase store).2 0 with
    | thrown page st f =>
      intro h
      simp at h
    | done page found acc stats st f =>
      intro h
      simp at h
      simp [h]
  · intro h
    rw [scrape_startPage]
    exact idle_lastPage_one _ h

/-- Witness for C1 (amended) at the boundary-hit world `upC4`/`dbC4`: the
completed run has dropped the store and the follow-up invocation starts at
page 1. -/
theorem boundary_completion_clears_store_and_next_run_restarts_witness :
    (scrapeMoviesIncrementally upC4 [] dbC4 none).store = none
    ∧ (scrapeMoviesIncrementally upC4 [] DB.empty
        (scrapeMoviesIncrementally upC4 [] dbC4 none).store).startPage = 1 := by
  have h := boundary_completion_clears_store_and_next_run_restarts upC4 [] dbC4 none
      upC4 [] DB.empty
  exact ⟨h.1 (by decide), h.2.1 (Or.inr (h.1 (by decide)))⟩

/-- Claim C6 (counterexample): a record with an empty — zero-element —
list of download variants is inserted successfully: its name is returned
and its row is written, refuting the claim that zero variants fail the
record. -/
theorem zero_variants_record_inserted_successfully :
    (insertNewMovies [] DB.empty [sampleMovie "A"]).1 = ["A"]
    ∧ ((insertNewMovies [] DB.empty [sampleMovie "A"]).2).movies.map MovieRow.name
        = ["A"] := by
  decide

/-- Claim C6 (amended): a record whose `download_links` field is null
fails mid-record — its name is absent from the returned list and the rest
of the batch is still processed — but its movies row has already been
written when the failure strikes, so the row is present. -/
theorem null_variants_fail_record_but_batch_continues (failNames : List String)
    (db : DB) (l1 l2 : List Movie) (m : Movie)
    (h1 : m.downloadLinks = none) (h2 : failNames.contains m.name = false) :
    (insertNewMovies failNames db (l1 ++ m :: l2)).1
        = ((l1 ++ l2).filter (recordOk failNames)).map Movie.name
    ∧ m.name ∈ ((insertNewMovies failNames db (l1 ++ m :: l2)).2).movies.map MovieRow.name := by
  constructor
  · rw [insertNewMovies_names]
    have hm : recordOk failNames m = false := by simp [recordOk, h1, h2]
    simp [List.filter_append, List.filter_cons, hm]
  · rw [insertNewMovies_row_names]
    have h2m : m.name ∉ failNames := by simpa using h2
    have hmem : m ∈ (l1 ++ m :: l2).filter (fun x => !(failNames.contains x.name)) := by
      rw [List.mem_filter]
      exact ⟨by simp, by simp [h2m]⟩
    exact List.mem_append_right _ (List.mem_map_of_mem Movie.name hmem)

/-- Witness for C6 (amended): in the batch `[A, B, C]` where `B` has null
variants, the returned names are those of `A` and `C`, and `B`'s row was
still written. -/
theorem null_variants_fail_record_but_batch_continues_witness :
    (insertNewMovies [] DB.empty ([sampleMovie "A"] ++ mNoLinks :: [sampleMovie "C"])).1
        = (([sampleMovie "A"] ++ [sampleMovie "C"]).filter (recordOk [])).map Movie.name
    ∧ mNoLinks.name ∈ ((insertNewMovies [] DB.empty
        ([sampleMovie "A"] ++ mNoLinks :: [sampleMovie "C"])).2).movies.map MovieRow.name :=
  null_variants_fail_record_but_batch_continues [] DB.empty
    [sampleMovie "A"] [sampleMovie "C"] mNoLinks rfl rfl

/-- Claim C8: whenever an exception escapes the paging loop (it threw at
page `p`), the engine writes a best-effort checkpoint — cursor `p`, the
run's starting watermark, `completed=false` — as the current progress row,
and propagates the failure (no summary is returned). -/
theorem paging_exception_checkpoints_before_propagating (up : Upstream)
    (failNames : List String) (db : DB) (store : Store)
    (p : Nat) (st : Store) (f : Nat)
    (h : pagingLoop up (getLastMovieName db) (idlePhase store).1.lastMovieName 4
        (idlePhase store).1.lastPage [] ⟨0, 0, 0⟩ (idlePhase store).2 0 = .thrown p st f) :
    (scrapeMoviesIncrementally up failNames db store).result = none
    ∧ latestState (scrapeMoviesIncrementally up failNames db store).store
        = some ⟨p, (idlePhase store).1.lastMovieName, false⟩ := by
  constructor
  · simp only [scrapeMoviesIncrementally]
    rw [h]
  · simp only [scrapeMoviesIncrementally]
    rw [h]
    exact latestState_update st _

/-- Witness for C8: with an upstream whose first fetch throws, the run
propagates the failure and the checkpoint row is `(1, null, false)`. -/
theorem paging_exception_checkpoints_before_propagating_witness :
    (scrapeMoviesIncrementally upExn [] DB.empty none).result = none
    ∧ latestState (scrapeMoviesIncrementally upExn [] DB.empty none).store
        = some ⟨1, (idlePhase (none : Store)).1.lastMovieName, false⟩ :=
  paging_exception_checkpoints_before_propagating upExn [] DB.empty none
    1 (some [initialPState]) 1 rfl

/-- Claim C7: with unchanged upstream data — page 1 is some non-empty new
region followed by the record already at the top of the destination store
— a first fresh run completes with a boundary hit inserting exactly the
new region, and a second invocation right after it inserts nothing. -/
theorem second_run_inserts_nothing (new rest : List Movie) (w : Movie)
    (up : Upstream) (db : DB)
    (hup : up 1 = .ok (new ++ w :: rest))
    (hne : new ≠ [])
    (hwm : getLastMovieName db = some w.name)
    (hnames : ∀ m ∈ new, m.name ≠ w.name)
    (hok : ∀ m ∈ new, m.downloadLinks.isSome = true) :
    (scrapeMoviesIncrementally up [] db none).result.map RunSummary.completed = some true
    ∧ (scrapeMoviesIncrementally up [] db none).result.map (fun r => r.stats.moviesInserted)
        = some new.length
    ∧ (scrapeMoviesIncrementally up []
        (scrapeMoviesIncrementally up [] db none).db
        (scrapeMoviesIncrementally up [] db none).store).result.map
          (fun r => r.stats.moviesInserted) = some 0 := by
  obtain ⟨n0, nt, rfl⟩ : ∃ n0 nt, new = n0 :: nt := by
    cases new with
    | nil => exact absurd rfl hne
    | cons a t => exact ⟨a, t, rfl⟩
  have hidle1 : (idlePhase (none : Store)).1.lastMovieName = none := rfl
  have hidle2 : (idlePhase (none : Store)).1.lastPage = 1 := rfl
  have hidle3 : (idlePhase (none : Store)).2 = some [initialPState] := rfl
  have h4 : (4 : Nat) = 3 + 1 := rfl
  have hup1 : up 1 = .ok (n0 :: (nt ++ w :: rest)) := by rw [hup, List.cons_append]
  have hsplit1 : splitAtWatermark (some w.name) ((n0 :: nt) ++ w :: rest)
      = (n0 :: nt, true) := split_hits_after w.name (n0 :: nt) rest w rfl hnames
  have hsplit2 : splitAtWatermark (some n0.name) (n0 :: (nt ++ w :: rest)) = ([], true) := by
    simp [splitAtWatermark]
  have hfilterOk : (n0 :: nt).reverse.filter (recordOk []) = (n0 :: nt).reverse :=
    List.filter_eq_self.mpr (fun m hm => by
      simp [recordOk, hok m (List.mem_reverse.mp hm)])
  have hfilterAll : (n0 :: nt).reverse.filter (fun m => !(([] : List String).contains m.name))
      = (n0 :: nt).reverse := List.filter_eq_self.mpr (fun m _ => rfl)
  have hx : (((n0 :: nt).reverse).map Movie.name).getLast? = some n0.name := by
    simp [List.map_reverse, List.getLast?_reverse]
  have hdb1 : (scrapeMoviesIncrementally up [] db none).db
      = (insertNewMovies [] db ((n0 :: nt).reverse)).2 := by
    simp only [scrapeMoviesIncrementally]
    rw [hwm, hidle1, hidle2, hidle3, h4]
    rw [pagingLoop_boundary up (some w.name) none 3 1 [] ⟨0, 0, 0⟩ (some [initialPState]) 0
        n0 (nt ++ w :: rest) (n0 :: nt) hup1 hsplit1]
    simp
  have hstore1 : (scrapeMoviesIncrementally up [] db none).store = none := by
    simp only [scrapeMoviesIncrementally]
    rw [hwm, hidle1, hidle2, hidle3, h4]
    rw [pagingLoop_boundary up (some w.name) none 3 1 [] ⟨0, 0, 0⟩ (some [initialPState]) 0
        n0 (nt ++ w :: rest) (n0 :: nt) hup1 hsplit1]
    simp
  have hwm2 : getLastMovieName ((insertNewMovies [] db ((n0 :: nt).reverse)).2)
      = some n0.name := by
    unfold getLastMovieName
    rw [← List.getLast?_map]
    rw [insertNewMovies_row_names, hfilterAll]
    rw [List.getLast?_append]
    rw [hx]
    rfl
  refine ⟨?_, ?_, ?_⟩
  · simp only [scrapeMoviesIncrementally]
    rw [hwm, hidle1, hidle2, hidle3, h4]
    rw [pagingLoop_boundary up (some w.name) none 3 1 [] ⟨0, 0, 0⟩ (some [initialPState]) 0
        n0 (nt ++ w :: rest) (n0 :: nt) hup1 hsplit1]
    simp
  · simp only [scrapeMoviesIncrementally]
    rw [hwm, hidle1, hidle2, hidle3, h4]
    rw [pagingLoop_boundary up (some w.name) none 3 1 [] ⟨0, 0, 0⟩ (some [initialPState]) 0
        n0 (nt ++ w :: rest) (n0 :: nt) hup1 hsplit1]
    simp only [List.nil_append, List.isEmpty_cons, Bool.false_eq_true, if_false]
    rw [insertNewMovies_names, hfilterOk]
    simp
  · rw [hdb1, hstore1]
    simp only [scrapeMoviesIncrementally]
    rw [hwm2, hidle1, hidle2, hidle3, h4]
    rw [pagingLoop_boundary up (some n0.name) none 3 1 [] ⟨0, 0, 0⟩ (some [initialPState]) 0
        n0 (nt ++ w :: rest) [] hup1 hsplit2]
    simp

/-- Witness for C7 at a one-record new region over the known `wMovie`:
run 1 completes inserting one record, run 2 inserts zero. -/
theorem second_run_inserts_nothing_witness :
    (scrapeMoviesIncrementally upOnePage [] dbOneW none).result.map RunSummary.completed
        = some true
    ∧ (scrapeMoviesIncrementally upOnePage [] dbOneW none).result.map
        (fun r => r.stats.moviesInserted) = some [sampleMovie "M1"].length
    ∧ (scrapeMoviesIncrementally upOnePage []
        (scrapeMoviesIncrementally upOnePage [] dbOneW none).db
        (scrapeMoviesIncrementally upOnePage [] dbOneW none).store).result.map
          (fun r => r.stats.moviesInserted) = some 0 :=
  second_run_inserts_nothing [sampleMovie "M1"] [] wMovie upOnePage dbOneW rfl
    (List.cons_ne_nil _ _) rfl (by decide) (by decide)

end Scrape
